import Mathlib

/-!
Shallow embedding of the THOR web datalogger stream parsers
(src/ble_data_logger_wrapper.py and src/swo_data_logger.py).

Strings are modelled as lists of characters.  Python floats are modelled as
exact decimal numbers: a pair of a mantissa and a number of decimal places,
kept in a canonical form (trailing zeros of the fractional part stripped),
so that two decimal literals denote the same model value exactly when they
denote the same rational number.  Binary floating point rounding is not
modelled; every numeric literal appearing in the repository and in the
claims is an exact decimal.  Python exceptions that the code does not catch
are modelled with the Except monad; exceptions that the code catches with
try/except blocks are modelled locally with Option.
-/

abbrev Str := List Char

/-- Python str.strip() whitespace test (ASCII whitespace as used here). -/
def isPySpaceB (c : Char) : Bool :=
  c == ' ' || c == '\t' || c == '\n' || c == '\r' || c == '\x0B' || c == '\x0C'

/-- Python str.strip(): drop leading and trailing whitespace. -/
def pyStrip (l : Str) : Str :=
  ((l.dropWhile isPySpaceB).reverse.dropWhile isPySpaceB).reverse

/-- Python line.startswith(pre). -/
def pyStartswith (l pre : Str) : Bool := List.isPrefixOf pre l

/-- Scan for an occurrence of the needle anywhere in the haystack. -/
def containsSub : Str → Str → Bool
  | [], n => n.isEmpty
  | c :: cs, n => List.isPrefixOf n (c :: cs) || containsSub cs n

/-- Python membership test sub in l for strings. -/
def pyContains (l sub : Str) : Bool := containsSub l sub

/-- Split a list at the first occurrence of the separator sep, returning
the part before it and the part after it, or none when sep never occurs. -/
def splitFirst (sep : Str) : Str → Option (Str × Str)
  | [] => none
  | c :: cs =>
    if List.isPrefixOf sep (c :: cs) then some ([], List.drop sep.length (c :: cs))
    else
      match splitFirst sep cs with
      | some (a, b) => some (c :: a, b)
      | none => none

/-- Python s.split(sep, 1): at most one split, at the first occurrence. -/
def pySplitOnce (sep : Str) (l : Str) : List Str :=
  match splitFirst sep l with
  | some (a, b) => [a, b]
  | none => [l]

/-- Fuelled worker for pySplit; every found separator strictly shortens the
remainder, so fuel equal to the length of the input always suffices. -/
def pySplitAux (sep : Str) : ℕ → Str → List Str
  | 0, l => [l]
  | Nat.succ fuel, l =>
    match splitFirst sep l with
    | some (a, b) => a :: pySplitAux sep fuel b
    | none => [l]

/-- Python s.split(sep) with a non-empty separator: split at every
occurrence. -/
def pySplit (sep l : Str) : List Str := pySplitAux sep l.length l

/-- Numeric value of a decimal digit character. -/
def digitVal (c : Char) : ℕ := c.toNat - 48

/-- Value of a digit string read in base ten (digits are assumed checked). -/
def digitsFold (l : Str) : ℕ := l.foldl (fun a c => 10 * a + digitVal c) 0

/-- Value of a non-empty all-digit string; none otherwise. -/
def digitsVal (l : Str) : Option ℕ :=
  if l.isEmpty then none
  else if l.all Char.isDigit then some (digitsFold l) else none

/-- Optionally signed digit string, as used for int() bodies and float
exponents.  Underscore digit separators of Python are not modelled; the
repository never produces them. -/
def signedDigits (l : Str) : Option ℤ :=
  match l with
  | '+' :: t => (digitsVal t).map (fun n => (n : ℤ))
  | '-' :: t => (digitsVal t).map (fun n => -(n : ℤ))
  | t => (digitsVal t).map (fun n => (n : ℤ))

/-- Python int(s): strip whitespace, then an optionally signed digit
string; ValueError (modelled as none) otherwise. -/
def pyInt (s : Str) : Option ℤ := signedDigits (pyStrip s)

/-- Exact decimal number: mantissa m and number of decimal places p,
denoting m divided by ten to the p.  Kept canonical: when p is positive the
mantissa is not divisible by ten. -/
abbrev PyNum := ℤ × ℕ

/-- Powers of ten over the naturals, kernel friendly. -/
def pow10N : ℕ → ℕ
  | 0 => 1
  | Nat.succ n => 10 * pow10N n

def pow10Z (n : ℕ) : ℤ := (pow10N n : ℤ)

/-- Canonicalise a decimal: strip trailing zeros of the fractional part. -/
def canonDec : ℤ → ℕ → PyNum
  | m, 0 => (m, 0)
  | m, Nat.succ p => if m % 10 = 0 then canonDec (m / 10) p else (m, Nat.succ p)

/-- Build a canonical decimal from a mantissa and a number of places; used
to write expected numeric values in the statements. -/
def mkDec (m : ℤ) (p : ℕ) : PyNum := canonDec m p

/-- Negate a decimal; canonical form is preserved. -/
def decNeg (d : PyNum) : PyNum := (-d.1, d.2)

/-- Mantissa part of a float body: digits, or digits.digits with at least
one digit present, scaled to an integer with its number of places. -/
def decMantissa (t : Str) : Option (ℕ × ℕ) :=
  match pySplit ['.'] t with
  | [d] => (digitsVal d).map (fun n => (n, 0))
  | [i, f] =>
    if i.isEmpty && f.isEmpty then none
    else if i.all Char.isDigit && f.all Char.isDigit then
      some (digitsFold i * pow10N f.length + digitsFold f, f.length)
    else none
  | _ => none

/-- Split a float body at the first exponent letter. -/
def splitOnExp : Str → Str × Option Str
  | [] => ([], none)
  | c :: cs =>
    if c == 'e' || c == 'E' then ([], some cs)
    else
      let (a, b) := splitOnExp cs
      (c :: a, b)

/-- Combine a scaled mantissa, its places and an exponent into a canonical
decimal: the value is m times ten to the (e minus p). -/
def applyExp (m : ℤ) (p : ℕ) (e : ℤ) : PyNum :=
  let net : ℤ := e - (p : ℤ)
  if 0 ≤ net then canonDec (m * pow10Z net.toNat) 0
  else canonDec m (-net).toNat

/-- Unsigned float body: mantissa with an optional exponent part. -/
def pyFloatBody (u : Str) : Option PyNum :=
  let (mstr, eo) := splitOnExp u
  match decMantissa mstr with
  | none => none
  | some (m, p) =>
    match eo with
    | none => some (applyExp (m : ℤ) p 0)
    | some es =>
      match signedDigits es with
      | none => none
      | some e => some (applyExp (m : ℤ) p e)

/-- Python float(s) on the decimal grammar used by this repository: strip
whitespace, optional sign, digits with an optional point and an optional
exponent.  The inf and nan spellings and underscore separators are not
modelled; the instrument never emits them. -/
def pyFloat (s : Str) : Option PyNum :=
  match pyStrip s with
  | '+' :: u => pyFloatBody u
  | '-' :: u => (pyFloatBody u).map decNeg
  | u => pyFloatBody u

/-- Python dict assignment d[k] = v on an insertion-ordered dict. -/
def pyInsert : List (Str × Str) → Str → Str → List (Str × Str)
  | [], k, v => [(k, v)]
  | (k0, v0) :: rest, k, v =>
    if k0 = k then (k0, v) :: rest else (k0, v0) :: pyInsert rest k v

/-- Python dict .get(k): first binding of k, if any. -/
def pyDictGet : List (Str × Str) → Str → Option Str
  | [], _ => none
  | (k0, v0) :: rest, k => if k0 = k then some v0 else pyDictGet rest k

/-- Parser states of both scripts.  The string value initial tested for in
the SWO boundary check never occurs (the initial state of both mains is
waiting_for_data), and the string finished tested for in the SWO main loop
is never returned by parse_line, so neither needs a constructor. -/
inductive PState where
  | waiting_for_data
  | parsing_params
  | voltage_steps
  | data_output
deriving DecidableEq

/-- The in-progress run record: the data dict of both scripts.  The BLE
script starts from an empty dict and only ever reads absent keys through
dict.get, so the empty dict is observationally the all-empty record. -/
structure RunRecord where
  device_name : Option Str
  params : List (Str × Str)
  voltage_steps : List PyNum
  output_data : List (ℤ × PyNum)
deriving DecidableEq

def emptyRecord : RunRecord := ⟨none, [], [], []⟩

/-- A record is savable when the device name is present and non-empty and
at least one output sample was collected. -/
def savable (r : RunRecord) : Prop :=
  r.device_name.getD [] ≠ [] ∧ r.output_data ≠ []

instance savableDec (r : RunRecord) : Decidable (savable r) := by
  unfold savable
  infer_instance

/-- Uncaught Python exceptions relevant to the embedding. -/
inductive PyExc where
  | valueError
  | indexError
deriving DecidableEq

/-- Python list indexing l[i]; IndexError when out of range. -/
def pyGetE (l : List Str) (i : ℕ) : Except PyExc Str :=
  match l.get? i with
  | some x => Except.ok x
  | none => Except.error PyExc.indexError

/-- Python tuple unpacking a, b = l; ValueError unless l has two items. -/
def unpack2 (l : List Str) : Except PyExc (Str × Str) :=
  match l with
  | [a, b] => Except.ok (a, b)
  | _ => Except.error PyExc.valueError

def kwDevice : Str := ("Device Name:").data
def kwParam : Str := ("Param_").data
def kwVoltageSteps : Str := ("Voltage Steps:").data
def kwVoltageStep : Str := ("Voltage Step:").data
def kwDataOut : Str := ("Data Output:").data
def kwIndex : Str := ("index:").data
def kwInfo : Str := ("[I]").data
def unitMV : Str := ("mV").data
def finished_marker : Str := ("SqrWave Voltammetry test finished").data

/-- Voltage step extraction of both scripts:
float(line.split(':')[1].split('mV')[0].strip()), with ValueError and
IndexError caught by the surrounding try block. -/
def parseVoltageStep (line : Str) : Option PyNum :=
  match (pySplit [':'] line).get? 1 with
  | none => none
  | some s =>
    match (pySplit unitMV s).get? 0 with
    | none => none
    | some t => pyFloat (pyStrip t)

/-- Output sample extraction of the BLE script: split on comma, require at
least two parts, int(parts[0].split(':')[1].strip()) and
float(parts[1].strip()), with ValueError and IndexError caught. -/
def parseIndexBLE (line : Str) : Option (ℤ × PyNum) :=
  let parts := pySplit [','] line
  if parts.length ≥ 2 then
    match parts.get? 0 with
    | none => none
    | some p0 =>
      match (pySplit [':'] p0).get? 1 with
      | none => none
      | some i0 =>
        match pyInt (pyStrip i0) with
        | none => none
        | some idx =>
          match parts.get? 1 with
          | none => none
          | some p1 =>
            match pyFloat (pyStrip p1) with
            | none => none
            | some v => some (idx, v)
  else none

/-- Output sample extraction of the SWO script: as in the BLE script but
without the length guard; the IndexError of a missing second part is
caught by the same try block. -/
def parseIndexSWO (line : Str) : Option (ℤ × PyNum) :=
  let parts := pySplit [','] line
  match parts.get? 0 with
  | none => none
  | some p0 =>
    match (pySplit [':'] p0).get? 1 with
    | none => none
    | some i0 =>
      match pyInt (pyStrip i0) with
      | none => none
      | some idx =>
        match parts.get? 1 with
        | none => none
        | some p1 =>
          match pyFloat (pyStrip p1) with
          | none => none
          | some v => some (idx, v)

namespace BLE

/-- The save gate of save_data_and_plots in the BLE script: skip when the
device name is missing or empty, skip when no output data was collected;
otherwise the record is written out, which is the emission to the sink. -/
def save_data_and_plots (r : RunRecord) : Option RunRecord :=
  if r.device_name.getD [] = [] then none
  else if r.output_data = [] then none
  else some r

/-- The state-scoped dispatch of the BLE parse_line below the device-name
and phase-skip checks.  All field parse failures here are caught by the
try blocks of the source, so this part is total. -/
def dispatch (line : Str) (st : PState) (r : RunRecord) : PState × RunRecord :=
  match st with
  | PState.parsing_params =>
    if pyStartswith line kwParam then
      match pySplitOnce [':'] line with
      | [k, v] => (st, { r with params := pyInsert r.params (pyStrip k) (pyStrip v) })
      | _ => (st, r)
    else if pyStartswith line kwVoltageSteps then (PState.voltage_steps, r)
    else (st, r)
  | PState.voltage_steps =>
    if pyStartswith line kwVoltageStep then
      match parseVoltageStep line with
      | some v => (st, { r with voltage_steps := r.voltage_steps ++ [v] })
      | none => (st, r)
    else if pyStartswith line kwDataOut then (PState.data_output, r)
    else (st, r)
  | PState.data_output =>
    if pyStartswith line kwIndex then
      match parseIndexBLE line with
      | some p => (st, { r with output_data := r.output_data ++ [p] })
      | none => (st, r)
    else (st, r)
  | PState.waiting_for_data => (st, r)

/-- parse_line of the BLE script.  A device-name line first saves the
previous run when output data was collected, then resets the record and
moves to parsing_params.  Otherwise the phase-skip guard switches from
voltage_steps to data_output for an index line before dispatching the same
line.  The finished marker inside the data_output state only logs. -/
def parse_line (line : Str) (st : PState) (r : RunRecord) :
    Except PyExc (PState × RunRecord × List RunRecord) :=
  if pyStartswith line kwDevice then
    let emits := if r.output_data = [] then [] else (save_data_and_plots r).toList
    match pyGetE (pySplitOnce [':'] line) 1 with
    | Except.error e => Except.error e
    | Except.ok raw =>
      Except.ok (PState.parsing_params, ⟨some (pyStrip raw), [], [], []⟩, emits)
  else
    let st1 := if st = PState.voltage_steps ∧ pyStartswith line kwIndex then PState.data_output else st
    let out := dispatch line st1 r
    Except.ok (out.1, out.2, [])

/-- The finally block of the BLE main: save the remaining record when
output data was collected. -/
def finalFlush (r : RunRecord) : List RunRecord :=
  if r.output_data = [] then [] else (save_data_and_plots r).toList

end BLE

namespace SWO

/-- save_data_and_plots of the SWO script: it never skips; a missing or
empty device name is replaced by default_device and the record is written
out unconditionally. -/
def save_data_and_plots (r : RunRecord) : RunRecord :=
  if r.device_name.getD [] = [] then { r with device_name := some (("default_device").data) } else r

/-- The state-scoped dispatch of the SWO parse_line.  The parameter branch
unpacks line.split(':', 1) into two names without a guard, so a parameter
line without a colon raises ValueError. -/
def dispatch (line : Str) (st : PState) (r : RunRecord) :
    Except PyExc (PState × RunRecord) :=
  match st with
  | PState.parsing_params =>
    if pyStartswith line kwParam then
      match unpack2 (pySplitOnce [':'] line) with
      | Except.error e => Except.error e
      | Except.ok (k, v) =>
        Except.ok (st, { r with params := pyInsert r.params (pyStrip k) (pyStrip v) })
    else if pyStartswith line kwVoltageSteps then Except.ok (PState.voltage_steps, r)
    else Except.ok (st, r)
  | PState.voltage_steps =>
    if pyStartswith line kwVoltageStep then
      match parseVoltageStep line with
      | some v => Except.ok (st, { r with voltage_steps := r.voltage_steps ++ [v] })
      | none => Except.ok (st, r)
    else if pyStartswith line kwDataOut then Except.ok (PState.data_output, r)
    else Except.ok (st, r)
  | PState.data_output =>
    if pyStartswith line kwIndex then
      match parseIndexSWO line with
      | some p => Except.ok (st, { r with output_data := r.output_data ++ [p] })
      | none => Except.ok (st, r)
    else Except.ok (st, r)
  | PState.waiting_for_data => Except.ok (st, r)

/-- parse_line of the SWO script.  A device-name line saves the previous
run whenever the state is past waiting_for_data, regardless of content,
then resets.  Lines tagged [I] are skipped.  After the state dispatch, a
line containing the finished marker saves the current run when output data
is present and resets to waiting_for_data with an empty record. -/
def parse_line (line : Str) (st : PState) (r : RunRecord) :
    Except PyExc (PState × RunRecord × List RunRecord) :=
  if pyStartswith line kwDevice then
    let emits := if st = PState.waiting_for_data then [] else [save_data_and_plots r]
    match pyGetE (pySplitOnce [':'] line) 1 with
    | Except.error e => Except.error e
    | Except.ok raw =>
      Except.ok (PState.parsing_params, ⟨some (pyStrip raw), [], [], []⟩, emits)
  else if pyStartswith line kwInfo then Except.ok (st, r, [])
  else
    match dispatch line st r with
    | Except.error e => Except.error e
    | Except.ok (st1, r1) =>
      if pyContains line finished_marker then
        if r1.output_data = [] then Except.ok (st1, r1, [])
        else Except.ok (PState.waiting_for_data, emptyRecord, [save_data_and_plots r1])
      else Except.ok (st1, r1, [])

end SWO

/-- Feed a list of lines one at a time through a parse step, collecting
the emitted records; an uncaught exception aborts the loop, keeping the
emissions that already happened. -/
def runLines (step : Str → PState → RunRecord → Except PyExc (PState × RunRecord × List RunRecord)) :
    List Str → PState → RunRecord → List RunRecord × Except PyExc (PState × RunRecord)
  | [], st, r => ([], Except.ok (st, r))
  | l :: ls, st, r =>
    match step l st r with
    | Except.error e => ([], Except.error e)
    | Except.ok (st1, r1, es) =>
      let rest := runLines step ls st1 r1
      (es ++ rest.1, rest.2)

/-- All records emitted by the BLE channel on a line sequence, including
the final flush performed by the finally block of its main. -/
def ble_session (lines : List Str) : List RunRecord :=
  match runLines BLE.parse_line lines PState.waiting_for_data emptyRecord with
  | (es, Except.ok (_, r)) => es ++ BLE.finalFlush r
  | (es, Except.error _) => es

/-- All records emitted by the SWO channel on a line sequence; its main
performs no flush when the subprocess stream ends. -/
def swo_session (lines : List Str) : List RunRecord :=
  (runLines SWO.parse_line lines PState.waiting_for_data emptyRecord).1

/-- Split a buffer at every newline: the completed segments in order and
the unterminated remainder.  This is the repeated split('\n', 1) loop of
notification_handler in the BLE script, written structurally. -/
def segsNL : Str → List Str × Str
  | [] => ([], [])
  | c :: cs =>
    let rest := segsNL cs
    if c = '\n' then ([] :: rest.1, rest.2)
    else
      match rest.1 with
      | l :: ls2 => ((c :: l) :: ls2, rest.2)
      | [] => ([], c :: rest.2)

/-- Strip a completed segment and drop it when blank, as the loop body of
notification_handler does. -/
def cleanLine (l : Str) : Option Str :=
  let t := pyStrip l
  if t = [] then none else some t

/-- One call of the reassembly part of notification_handler: append the
chunk to the buffer, yield every completed non-blank stripped line, keep
the unterminated remainder. -/
def feed (buf chunk : Str) : List Str × Str :=
  let res := segsNL (buf ++ chunk)
  (res.1.filterMap cleanLine, res.2)

/-- Sequential feeding of several chunks, collecting all yielded lines and
the final buffer. -/
def feedMany : Str → List Str → List Str × Str
  | buf, [] => ([], buf)
  | buf, c :: cs =>
    let first := feed buf c
    let rest := feedMany first.2 cs
    (first.1 ++ rest.1, rest.2)

/-- Prepend a remainder onto the first of a list of segments. -/
def headGlue (r : Str) : List Str → List Str
  | [] => []
  | x :: xs => (r ++ x) :: xs

/-- How newline segmentations of two adjacent buffers combine. -/
def glueSegs (p q : List Str × Str) : List Str × Str :=
  (p.1 ++ headGlue p.2 q.1, if q.1 = [] then p.2 ++ q.2 else q.2)

/-- The first nine lines of the end-to-end scenario of spec section 8. -/
def scenario9 : List Str :=
  List.map String.data [
    "Device Name: THOR-01",
    "Param_RampStartVolt: -200",
    "Param_RampPeakVolt: 200",
    "Voltage Steps:",
    "Voltage Step: -200mV",
    "Voltage Step: -190mV",
    "Data Output:",
    "index: 0, 1.10",
    "index: 1, 1.15"]

def lineDevice2 : Str := ("Device Name: THOR-02").data

/-- The full ten-line end-to-end scenario of spec section 8. -/
def scenario10 : List Str := scenario9 ++ [lineDevice2]

/-- The run record the scenario builds for THOR-01 before the boundary. -/
def scenarioRecord : RunRecord :=
  ⟨some (("THOR-01").data),
   [((("Param_RampStartVolt").data), (("-200").data)),
    ((("Param_RampPeakVolt").data), (("200").data))],
   [mkDec (-200) 0, mkDec (-190) 0],
   [(0, mkDec 110 2), (1, mkDec 115 2)]⟩

/-- The fresh record for THOR-02 right after the second boundary line. -/
def scenarioRecord2 : RunRecord := ⟨some (("THOR-02").data), [], [], []⟩

/-- The voltage range lookups of generate_swv_plot: both scripts read the
parameters back under the Param_ prefixed keys. -/
def generate_swv_lookup (r : RunRecord) : Option Str × Option Str :=
  (pyDictGet r.params (("Param_RampStartVolt").data),
   pyDictGet r.params (("Param_RampPeakVolt").data))

theorem headGlue_nil_left (ls : List Str) : headGlue [] ls = ls := by
  cases ls <;> simp [headGlue]

theorem segsNL_no_newline (l : Str) (h : '\n' ∉ l) : segsNL l = ([], l) := by
  induction l with
  | nil => rfl
  | cons c cs ih =>
    have hc : c ≠ '\n' := by
      intro hc; exact h (hc ▸ List.mem_cons_self c cs)
    have hcs : '\n' ∉ cs := fun hm => h (List.mem_cons_of_mem c hm)
    simp [segsNL, ih hcs, hc]

theorem segsNL_rem_no_newline (l : Str) : '\n' ∉ (segsNL l).2 := by
  induction l with
  | nil => simp [segsNL]
  | cons c cs ih =>
    by_cases hc : c = '\n'
    · simp [segsNL, hc, ih]
    · cases hseg : (segsNL cs).1 with
      | nil =>
        simp [segsNL, hc, hseg]
        constructor
        · intro h; exact hc h.symm
        · exact ih
      | cons x xs => simp [segsNL, hc, hseg, ih]

theorem segsNL_append (a b : Str) : segsNL (a ++ b) = glueSegs (segsNL a) (segsNL b) := by
  induction a with
  | nil =>
    cases hsb : segsNL b with
    | mk lb rb => cases lb <;> simp [segsNL, glueSegs, headGlue, hsb]
  | cons c a ih =>
    by_cases hc : c = '\n'
    · subst hc
      simp [segsNL, ih, glueSegs, headGlue]
    · cases hsa : (segsNL a).1 with
      | nil =>
        cases hsb : (segsNL b).1 with
        | nil =>
          simp [segsNL, ih, glueSegs, headGlue, hc, hsa, hsb]
        | cons x xs =>
          simp [segsNL, ih, glueSegs, headGlue, hc, hsa, hsb]
      | cons l ls =>
        simp [segsNL, ih, glueSegs, headGlue, hc, hsa]

theorem feedMany_eq_feed (cs : List Str) : ∀ buf : Str, '\n' ∉ buf →
    feedMany buf cs = feed buf cs.flatten := by
  induction cs with
  | nil =>
    intro buf h
    simp [feedMany, feed, List.flatten, segsNL_no_newline buf h]
  | cons c cs ih =>
    intro buf h
    have hrem : '\n' ∉ (segsNL (buf ++ c)).2 := segsNL_rem_no_newline (buf ++ c)
    have ihr := ih (segsNL (buf ++ c)).2 hrem
    simp only [feedMany, feed, List.flatten]
    rw [ihr]
    simp only [feed]
    have h1 : buf ++ (c ++ cs.flatten) = (buf ++ c) ++ cs.flatten := by
      simp [List.append_assoc]
    rw [h1, segsNL_append (buf ++ c) cs.flatten,
        segsNL_append (segsNL (buf ++ c)).2 cs.flatten,
        segsNL_no_newline _ hrem]
    simp [glueSegs, List.filterMap_append]

theorem splitFirst_append_single (c : Char) (a b : Str) (h : c ∉ a) :
    splitFirst [c] (a ++ c :: b) = some (a, b) := by
  induction a with
  | nil => simp [splitFirst, List.isPrefixOf]
  | cons x a ih =>
    have hne : c ≠ x := by
      intro hc; exact h (hc ▸ List.mem_cons_self x a)
    have hna : c ∉ a := fun hm => h (List.mem_cons_of_mem x hm)
    simp only [List.cons_append, splitFirst, List.append_eq]
    rw [ih hna]
    simp [List.isPrefixOf, beq_eq_false_iff_ne.mpr hne]

theorem splitFirst_mem (c : Char) (l : Str) (h : c ∈ l) :
    ∃ p, splitFirst [c] l = some p := by
  induction l with
  | nil => cases h
  | cons x xs ih =>
    by_cases hcx : c = x
    · subst hcx
      exact ⟨([], xs), by simp [splitFirst, List.isPrefixOf]⟩
    · have hxs : c ∈ xs := by
        cases List.mem_cons.mp h with
        | inl h0 => exact absurd h0 hcx
        | inr h0 => exact h0
      obtain ⟨⟨p1, p2⟩, hp⟩ := ih hxs
      refine ⟨(x :: p1, p2), ?_⟩
      simp [splitFirst, List.isPrefixOf, beq_eq_false_iff_ne.mpr hcx, hp]

theorem pyStartswith_exists (l pre : Str) (h : pyStartswith l pre = true) :
    ∃ t, l = pre ++ t := by
  obtain ⟨t, ht⟩ := List.isPrefixOf_iff_prefix.mp h
  exact ⟨t, ht.symm⟩

/-- The BLE parse_line never lets an exception escape: every field parse
is guarded or wrapped in a try block, and the device-name indexing always
succeeds because a device-name line contains a colon. -/
theorem ble_parse_line_total (line : Str) (st : PState) (r : RunRecord) :
    ∃ out, BLE.parse_line line st r = Except.ok out := by
  unfold BLE.parse_line
  by_cases hdev : pyStartswith line kwDevice = true
  · obtain ⟨t, ht⟩ := pyStartswith_exists line kwDevice hdev
    have hcolon : ':' ∈ line := by
      rw [ht]
      exact List.mem_append_left t (by decide)
    obtain ⟨⟨a, b⟩, hp⟩ := splitFirst_mem ':' line hcolon
    simp [hdev, pySplitOnce, hp, pyGetE]
  · simp [hdev]

theorem ble_save_savable (r e : RunRecord)
    (h : BLE.save_data_and_plots r = some e) : savable e := by
  unfold BLE.save_data_and_plots at h
  by_cases h1 : r.device_name.getD [] = []
  · rw [if_pos h1] at h; cases h
  · rw [if_neg h1] at h
    by_cases h2 : r.output_data = []
    · rw [if_pos h2] at h; cases h
    · rw [if_neg h2] at h
      injection h with h
      subst h
      exact ⟨h1, h2⟩

theorem ble_parse_emits_savable (line : Str) (st : PState) (r : RunRecord)
    (st' : PState) (r' : RunRecord) (es : List RunRecord)
    (h : BLE.parse_line line st r = Except.ok (st', r', es)) :
    ∀ e ∈ es, savable e := by
  unfold BLE.parse_line at h
  by_cases hdev : pyStartswith line kwDevice = true
  · rw [if_pos hdev] at h
    cases hg : pyGetE (pySplitOnce [':'] line) 1 with
    | error e2 => rw [hg] at h; cases h
    | ok raw =>
      rw [hg] at h
      injection h with h
      have hes : es = if r.output_data = [] then [] else (BLE.save_data_and_plots r).toList := by
        have := congrArg (fun p => p.2.2) h
        simpa using this.symm
      subst hes
      intro e he
      by_cases ho : r.output_data = []
      · rw [if_pos ho] at he; cases he
      · rw [if_neg ho] at he
        cases hs : BLE.save_data_and_plots r with
        | none => rw [hs] at he; cases he
        | some x =>
          rw [hs] at he
          simp only [Option.toList, List.mem_singleton] at he
          subst he
          exact ble_save_savable r e hs
  · rw [if_neg hdev] at h
    injection h with h
    have hes : es = [] := by
      have := congrArg (fun p => p.2.2) h
      simpa using this.symm
    subst hes
    intro e he
    cases he

theorem ble_flush_savable (r : RunRecord) : ∀ e ∈ BLE.finalFlush r, savable e := by
  intro e he
  unfold BLE.finalFlush at he
  by_cases ho : r.output_data = []
  · rw [if_pos ho] at he; cases he
  · rw [if_neg ho] at he
    cases hs : BLE.save_data_and_plots r with
    | none => rw [hs] at he; cases he
    | some x =>
      rw [hs] at he
      simp only [Option.toList, List.mem_singleton] at he
      subst he
      exact ble_save_savable r e hs

theorem runLines_ble_savable (lines : List Str) :
    ∀ (st : PState) (r : RunRecord),
      ∀ e ∈ (runLines BLE.parse_line lines st r).1, savable e := by
  induction lines with
  | nil => intro st r e he; simp [runLines] at he
  | cons l ls ih =>
    intro st r e he
    simp only [runLines] at he
    cases hstep : BLE.parse_line l st r with
    | error e2 => rw [hstep] at he; simp at he
    | ok out =>
      obtain ⟨st1, r1, es⟩ := out
      rw [hstep] at he
      simp only [List.mem_append] at he
      cases he with
      | inl hmem => exact ble_parse_emits_savable l st r st1 r1 es hstep e hmem
      | inr hmem => exact ih st1 r1 e hmem

theorem ble_session_savable (lines : List Str) :
    ∀ e ∈ ble_session lines, savable e := by
  intro e he
  unfold ble_session at he
  cases hrun : runLines BLE.parse_line lines PState.waiting_for_data emptyRecord with
  | mk es out =>
    rw [hrun] at he
    have hes : es = (runLines BLE.parse_line lines PState.waiting_for_data emptyRecord).1 := by
      rw [hrun]
    cases out with
    | ok p =>
      obtain ⟨st, r⟩ := p
      simp only [List.mem_append] at he
      cases he with
      | inl hmem => exact runLines_ble_savable lines PState.waiting_for_data emptyRecord e (hes ▸ hmem)
      | inr hmem => exact ble_flush_savable r e hmem
    | error e2 =>
      exact runLines_ble_savable lines PState.waiting_for_data emptyRecord e (hes ▸ he)

/-- C1 (counterexample): on the end-to-end scenario the single emitted
record stores the parameters under the Param_ prefixed keys, so its
parameter dict has no binding for the bare key RampStartVolt, contrary to
the claimed params mapping. -/
theorem end_to_end_unprefixed_key_absent :
    ble_session scenario10 = [scenarioRecord] ∧
    pyDictGet scenarioRecord.params (("RampStartVolt").data) = none := ⟨rfl, rfl⟩

/-- C1 (amended): on both channels, the first nine scenario lines emit
nothing and build the THOR-01 record with params stored under the
Param_ prefixed keys, voltage steps -200.0 and -190.0 and output samples
(0, 1.10) and (1, 1.15); processing the second device-name line emits
exactly that record (before any mutation for the new run) and leaves the
parser in parsing_params with a fresh THOR-02 record with empty fields. -/
theorem end_to_end_scenario_prefixed :
    (runLines BLE.parse_line scenario9 PState.waiting_for_data emptyRecord
      = ([], Except.ok (PState.data_output, scenarioRecord))) ∧
    (BLE.parse_line lineDevice2 PState.data_output scenarioRecord
      = Except.ok (PState.parsing_params, scenarioRecord2, [scenarioRecord])) ∧
    (runLines SWO.parse_line scenario9 PState.waiting_for_data emptyRecord
      = ([], Except.ok (PState.data_output, scenarioRecord))) ∧
    (SWO.parse_line lineDevice2 PState.data_output scenarioRecord
      = Except.ok (PState.parsing_params, scenarioRecord2, [scenarioRecord])) :=
  ⟨rfl, rfl, rfl, rfl⟩

/-- C2 (counterexample): on the SWO channel, two consecutive device-name
lines emit the first record even though it has no output samples, so the
sink is not only invoked on savable records. -/
theorem swo_boundary_emits_unsavable :
    swo_session (List.map String.data ["Device Name: X", "Device Name: Y"])
      = [⟨some (("X").data), [], [], []⟩] ∧
    ¬ savable (⟨some (("X").data), [], [], []⟩ : RunRecord) := ⟨rfl, by decide⟩

/-- C2 (amended): on the BLE channel every record handed to the sink, by a
parse step or by the final flush, is savable; on the SWO channel a
device-name boundary in any state past waiting_for_data emits the current
record unconditionally, savable or not. -/
theorem emit_only_when_savable_ble_not_swo :
    (∀ (line : Str) (st : PState) (r : RunRecord)
        (st' : PState) (r' : RunRecord) (es : List RunRecord),
      BLE.parse_line line st r = Except.ok (st', r', es) → ∀ e ∈ es, savable e) ∧
    (∀ r : RunRecord, ∀ e ∈ BLE.finalFlush r, savable e) ∧
    (∀ (st : PState) (r : RunRecord), st ≠ PState.waiting_for_data →
      SWO.parse_line (("Device Name: Y").data) st r =
        Except.ok (PState.parsing_params, ⟨some (("Y").data), [], [], []⟩,
          [SWO.save_data_and_plots r])) := by
  refine ⟨ble_parse_emits_savable, ble_flush_savable, ?_⟩
  intro st r h
  unfold SWO.parse_line
  rw [if_pos (by decide), if_neg h]
  rfl

theorem emit_only_when_savable_witness :
    savable scenarioRecord ∧
    SWO.parse_line (("Device Name: Y").data) PState.data_output scenarioRecord =
      Except.ok (PState.parsing_params, ⟨some (("Y").data), [], [], []⟩,
        [SWO.save_data_and_plots scenarioRecord]) := by
  refine ⟨?_, ?_⟩
  · exact emit_only_when_savable_ble_not_swo.1 (("Device Name: B").data)
      PState.data_output scenarioRecord PState.parsing_params
      ⟨some (("B").data), [], [], []⟩ [scenarioRecord] rfl scenarioRecord (by simp)
  · exact emit_only_when_savable_ble_not_swo.2.2 PState.data_output scenarioRecord (by decide)

/-- C3 (code bug): a parameter line without a colon raises an uncaught
ValueError in the SWO parse_line, escaping the line-processing boundary,
while the BLE parse_line never lets any exception escape on any line, any
state and any record. -/
theorem swo_param_line_uncaught :
    SWO.parse_line (("Param_Foo").data) PState.parsing_params emptyRecord
      = Except.error PyExc.valueError ∧
    (∀ (line : Str) (st : PState) (r : RunRecord),
      ∃ out, BLE.parse_line line st r = Except.ok out) :=
  ⟨rfl, ble_parse_line_total⟩

/-- C4 (counterexample): the SWO parse_line has no phase-skip guard: an
index line arriving in the voltage_steps state is ignored, the state stays
voltage_steps and no sample is recorded. -/
theorem swo_phase_skip_missing :
    SWO.parse_line (("index: 3, 1.25").data) PState.voltage_steps emptyRecord
      = Except.ok (PState.voltage_steps, emptyRecord, []) := rfl

/-- C4 (amended): on the BLE channel, an index line arriving in the
voltage_steps state switches the persistent state to data_output and the
same line is dispatched under the new state in the same step, appending
(3, 1.25) to the output samples of any record. -/
theorem ble_phase_skip (r : RunRecord) :
    BLE.parse_line (("index: 3, 1.25").data) PState.voltage_steps r =
      Except.ok (PState.data_output,
        { r with output_data := r.output_data ++ [(3, mkDec 125 2)] }, []) := rfl

/-- C5 (counterexample): on the SWO channel, a stream that ends after a
full run without a second device-name line leaves a savable record pending
and the session emits nothing: the SWO main performs no end-of-stream
flush. -/
theorem swo_eos_no_flush :
    swo_session scenario9 = [] ∧
    (runLines SWO.parse_line scenario9 PState.waiting_for_data emptyRecord).2
      = Except.ok (PState.data_output, scenarioRecord) ∧
    savable scenarioRecord := ⟨rfl, rfl, by decide⟩

/-- C5 (amended): on the BLE channel, the finally block of main flushes a
savable in-progress record exactly once at shutdown. -/
theorem ble_eos_flush_emits_once (r : RunRecord) (h : savable r) :
    BLE.finalFlush r = [r] := by
  obtain ⟨h1, h2⟩ := h
  unfold BLE.finalFlush BLE.save_data_and_plots
  rw [if_neg h2, if_neg h1, if_neg h2]
  rfl

theorem ble_eos_flush_emits_once_witness :
    savable scenarioRecord ∧ BLE.finalFlush scenarioRecord = [scenarioRecord] :=
  ⟨by decide, ble_eos_flush_emits_once scenarioRecord (by decide)⟩

/-- C6: feeding the sub-chunks of a complete terminated line sequentially
through the reassembler yields exactly the same single line as feeding it
unsplit, and chunks without a terminator only grow the buffer, yielding
nothing. -/
theorem reassembler_fragmentation_invariance
    (L : Str) (chunks : List Str)
    (hflat : chunks.flatten = L ++ ['\n'])
    (hL : '\n' ∉ L) (htrim : pyStrip L = L) (hne : L ≠ []) :
    feedMany [] chunks = feed [] (L ++ ['\n']) ∧
    feedMany [] chunks = ([L], []) ∧
    (∀ (buf : Str) (cs : List Str), '\n' ∉ buf → '\n' ∉ cs.flatten →
      feedMany buf cs = ([], buf ++ cs.flatten)) := by
  have hmain : feedMany [] chunks = feed [] (L ++ ['\n']) := by
    rw [feedMany_eq_feed chunks [] (by simp), hflat]
  refine ⟨hmain, ?_, ?_⟩
  · rw [hmain]
    simp only [feed, List.nil_append]
    rw [segsNL_append L ['\n'], segsNL_no_newline L hL]
    simp [glueSegs, headGlue, segsNL, cleanLine, htrim, hne]
  · intro buf cs hbuf hcs
    rw [feedMany_eq_feed cs buf hbuf]
    simp only [feed]
    have : '\n' ∉ buf ++ cs.flatten := by
      intro hm
      rcases List.mem_append.mp hm with hm | hm
      · exact hbuf hm
      · exact hcs hm
    rw [segsNL_no_newline _ this]
    simp

theorem reassembler_fragmentation_invariance_witness :
    feedMany [] [("a").data, ("b\n").data] = ([("ab").data], []) ∧
    feedMany (("x").data) [("y").data] = ([], ("xy").data) := by
  have h := reassembler_fragmentation_invariance (("ab").data)
    [("a").data, ("b\n").data] (by decide) (by decide) (by decide) (by decide)
  exact ⟨h.2.1, h.2.2 (("x").data) [("y").data] (by decide) (by decide)⟩

/-- C7: a line containing the finished marker and matching no other rule
leaves state and record unchanged on the BLE channel, while on the SWO
channel, when output samples are present, it emits the current record and
resets to waiting_for_data with an empty record. -/
theorem finished_marker_channel_policy
    (line : Str) (st : PState) (r : RunRecord)
    (hm : pyContains line finished_marker = true)
    (h1 : pyStartswith line kwDevice = false)
    (h2 : pyStartswith line kwInfo = false)
    (h3 : pyStartswith line kwParam = false)
    (h4 : pyStartswith line kwVoltageSteps = false)
    (h5 : pyStartswith line kwVoltageStep = false)
    (h6 : pyStartswith line kwDataOut = false)
    (h7 : pyStartswith line kwIndex = false) :
    BLE.parse_line line st r = Except.ok (st, r, []) ∧
    (r.output_data ≠ [] →
      SWO.parse_line line st r =
        Except.ok (PState.waiting_for_data, emptyRecord, [SWO.save_data_and_plots r])) := by
  constructor
  · unfold BLE.parse_line
    rw [if_neg (by simp [h1])]
    have hst1 : (if st = PState.voltage_steps ∧ pyStartswith line kwIndex = true
        then PState.data_output else st) = st := by
      rw [if_neg]
      rintro ⟨-, hb⟩
      rw [h7] at hb
      cases hb
    rw [hst1]
    cases st <;> simp [BLE.dispatch, h3, h4, h5, h6, h7]
  · intro hout
    unfold SWO.parse_line
    rw [if_neg (by simp [h1]), if_neg (by simp [h2])]
    have hdisp : SWO.dispatch line st r = Except.ok (st, r) := by
      cases st <;> simp [SWO.dispatch, h3, h4, h5, h6, h7]
    rw [hdisp]
    simp [hm, hout]

theorem finished_marker_channel_policy_witness :
    BLE.parse_line finished_marker PState.data_output scenarioRecord
      = Except.ok (PState.data_output, scenarioRecord, []) ∧
    SWO.parse_line finished_marker PState.data_output scenarioRecord =
      Except.ok (PState.waiting_for_data, emptyRecord,
        [SWO.save_data_and_plots scenarioRecord]) := by
  have h := finished_marker_channel_policy finished_marker PState.data_output
    scenarioRecord (by decide) (by decide) (by decide) (by decide) (by decide)
    (by decide) (by decide) (by decide)
  exact ⟨h.1, h.2 (by decide)⟩

/-- C8: in the voltage_steps state, on both channels, a 250mV voltage-step
line appends 250.0 and keeps the state, and a voltage-step line with a
non-numeric value appends nothing, changes nothing else and keeps the
state. -/
theorem voltage_step_numeric_extraction (r : RunRecord) :
    (BLE.parse_line (("Voltage Step: 250mV").data) PState.voltage_steps r =
      Except.ok (PState.voltage_steps,
        { r with voltage_steps := r.voltage_steps ++ [mkDec 250 0] }, [])) ∧
    (SWO.parse_line (("Voltage Step: 250mV").data) PState.voltage_steps r =
      Except.ok (PState.voltage_steps,
        { r with voltage_steps := r.voltage_steps ++ [mkDec 250 0] }, [])) ∧
    (BLE.parse_line (("Voltage Step: abcmV").data) PState.voltage_steps r =
      Except.ok (PState.voltage_steps, r, [])) ∧
    (SWO.parse_line (("Voltage Step: abcmV").data) PState.voltage_steps r =
      Except.ok (PState.voltage_steps, r, [])) :=
  ⟨rfl, rfl, rfl, rfl⟩

/-- C9: a parameter line stores, on both channels, the whole trimmed text
before the first colon as the key, Param_ prefix included, and the
generate_swv_plot lookups find the scenario values under the prefixed keys
while the bare key is absent. -/
theorem param_key_keeps_prefix
    (k v : Str) (r : RunRecord) (hk : ':' ∉ k)
    (hnm : pyContains (kwParam ++ (k ++ ':' :: v)) finished_marker = false) :
    (BLE.parse_line (kwParam ++ (k ++ ':' :: v)) PState.parsing_params r =
      Except.ok (PState.parsing_params,
        { r with params := pyInsert r.params (pyStrip (kwParam ++ k)) (pyStrip v) }, [])) ∧
    (SWO.parse_line (kwParam ++ (k ++ ':' :: v)) PState.parsing_params r =
      Except.ok (PState.parsing_params,
        { r with params := pyInsert r.params (pyStrip (kwParam ++ k)) (pyStrip v) }, [])) ∧
    generate_swv_lookup scenarioRecord = (some (("-200").data), some (("200").data)) ∧
    pyDictGet scenarioRecord.params (("RampStartVolt").data) = none := by
  have hdev : pyStartswith (kwParam ++ (k ++ ':' :: v)) kwDevice = false := by
    unfold pyStartswith kwParam kwDevice
    simp [List.isPrefixOf]
  have hinfo : pyStartswith (kwParam ++ (k ++ ':' :: v)) kwInfo = false := by
    unfold pyStartswith kwParam kwInfo
    simp [List.isPrefixOf]
  have hpar : pyStartswith (kwParam ++ (k ++ ':' :: v)) kwParam = true := by
    unfold pyStartswith kwParam
    simp [List.isPrefixOf]
  have hno : ':' ∉ kwParam ++ k := by
    intro hmem
    rcases List.mem_append.mp hmem with hc | hc
    · revert hc; decide
    · exact hk hc
  have hsf : splitFirst [':'] (kwParam ++ (k ++ ':' :: v)) = some (kwParam ++ k, v) := by
    have h0 := splitFirst_append_single ':' (kwParam ++ k) v hno
    rw [List.append_assoc] at h0
    exact h0
  refine ⟨?_, ?_, rfl, rfl⟩
  · unfold BLE.parse_line
    rw [if_neg (by rw [hdev]; decide)]
    simp [BLE.dispatch, pySplitOnce, hsf, hpar]
  · unfold SWO.parse_line
    rw [if_neg (by rw [hdev]; decide), if_neg (by rw [hinfo]; decide)]
    simp [SWO.dispatch, pySplitOnce, hsf, hpar, unpack2, hnm]

theorem param_key_keeps_prefix_witness :
    BLE.parse_line (("Param_RampStartVolt: -200").data) PState.parsing_params emptyRecord =
      Except.ok (PState.parsing_params,
        { emptyRecord with params :=
            [((("Param_RampStartVolt").data), (("-200").data))] }, []) := by
  have h := param_key_keeps_prefix (("RampStartVolt").data) ((" -200").data)
    emptyRecord (by decide) (by decide)
  exact h.1

/-- C10: on the BLE channel, a device-name line with an empty name still
emits a savable previous run, resets the record with an empty device name
and moves to parsing_params; and no record whose device name is the empty
string is ever emitted in any BLE session, because the save gate rejects
it. -/
theorem empty_device_name_boundary :
    (∀ (st : PState) (r : RunRecord), savable r →
      BLE.parse_line (("Device Name:").data) st r =
        Except.ok (PState.parsing_params, ⟨some [], [], [], []⟩, [r])) ∧
    (∀ (lines : List Str) (e : RunRecord), e ∈ ble_session lines →
      e.device_name ≠ some []) := by
  constructor
  · rintro st r ⟨h1, h2⟩
    unfold BLE.parse_line
    rw [if_pos (by decide), if_neg h2]
    unfold BLE.save_data_and_plots
    rw [if_neg h1, if_neg h2]
    rfl
  · intro lines e he hdn
    have hs := ble_session_savable lines e he
    have h1 := hs.1
    rw [hdn] at h1
    simp [Option.getD] at h1

theorem empty_device_name_boundary_witness :
    savable scenarioRecord ∧
    (BLE.parse_line (("Device Name:").data) PState.data_output scenarioRecord =
      Except.ok (PState.parsing_params, ⟨some [], [], [], []⟩, [scenarioRecord])) ∧
    scenarioRecord.device_name ≠ some [] := by
  refine ⟨by decide, empty_device_name_boundary.1 PState.data_output scenarioRecord (by decide), ?_⟩
  exact empty_device_name_boundary.2 scenario10 scenarioRecord (by decide)
